import Mathlib

/-!
Verification of the static name-resolution pass of the glox interpreter
(`golox/interpreter/resolver.go`), together with its diagnostic-collection
helper (`golox/loxerror/loxerror.go`).

The Go code is shallowly embedded: the mutable `resolver` struct becomes an
explicit `Resolver` state threaded through the recursive walk, Go maps become
association lists with replace-or-insert semantics, and the scope stack
(`stack[scope]`, a Go slice with index 0 = outermost) is represented as a list
whose HEAD is the innermost scope, so the Go loop
`for i := len-1; i >= 0; i--` becomes recursion from the head, and the Go
index `i` of the scope at head-position `j` is `length - 1 - j`.
-/

namespace Glox

/-- Go `token.Token`: lexeme text plus a source range.  Positions are
abstracted to a single `Nat` offset; `token.Position.Compare` becomes `Nat`
order.  Tokens are compared by value, as Go does when keying
`map[token.Token]int`. -/
structure Token where
  lexeme : String
  startPos : Nat
  endPos : Nat
deriving DecidableEq, Repr

/-- Go `token.BlankIdent`: the distinguished blank-identifier lexeme. -/
def blankIdent : String := "_"

/-- Go `identInfo`: per-identifier binding state within one scope. -/
structure IdentInfo where
  defined : Bool
  used : Bool
  token : Token
deriving DecidableEq, Repr

/-- Go `scope` (`map[string]*identInfo`), as an association list.  Updates
replace in place, so the list order is the insertion order; Go's map
iteration order is unspecified, so any statement about the order of
`UnusedIdents` output is a determinization. -/
abbrev Scope : Type := List (String × IdentInfo)

namespace Scope

/-- Go map read `s[k]` (presence). -/
def lookup (s : Scope) (k : String) : Option IdentInfo :=
  match s with
  | [] => none
  | (k', v) :: rest => if k' = k then some v else lookup rest k

/-- Go map write `s[k] = v`: replace in place, or append when absent. -/
def set (s : Scope) (k : String) (v : IdentInfo) : Scope :=
  match s with
  | [] => [(k, v)]
  | (k', v') :: rest => if k' = k then (k, v) :: rest else (k', v') :: set rest k v

/-- Go `scope.Declare`: no-op on the blank identifier, else insert a fresh
undefined, unused binding recording `tok` as its origin. -/
def Declare (s : Scope) (tok : Token) : Scope :=
  if tok.lexeme = blankIdent then s
  else s.set tok.lexeme { defined := false, used := false, token := tok }

/-- Go `scope.Define` (`s[tok.Lexeme].Defined = true`).  The Go code
dereferences the map entry and would fault on an absent key; every call site
guards with `IsDeclared`, so the absent case is modelled as the identity. -/
def Define (s : Scope) (tok : Token) : Scope :=
  match s with
  | [] => []
  | (k', v) :: rest =>
    if k' = tok.lexeme then (k', { v with defined := true }) :: rest
    else (k', v) :: Define rest tok

/-- Go `scope.Use` (`s[tok.Lexeme].Used = true`), guarded like `Define`. -/
def Use (s : Scope) (tok : Token) : Scope :=
  match s with
  | [] => []
  | (k', v) :: rest =>
    if k' = tok.lexeme then (k', { v with used := true }) :: rest
    else (k', v) :: Use rest tok

/-- Go `scope.IsDeclared`. -/
def IsDeclared (s : Scope) (tok : Token) : Bool :=
  (s.lookup tok.lexeme).isSome

/-- Go `scope.IsDefined` (guarded by `IsDeclared` at every call site). -/
def IsDefined (s : Scope) (tok : Token) : Bool :=
  match s.lookup tok.lexeme with
  | some info => info.defined
  | none => false

/-- Go `scope.UnusedIdents`: origin tokens of the bindings never used. -/
def UnusedIdents (s : Scope) : List Token :=
  (s.filter (fun kv => !kv.2.used)).map (fun kv => kv.2.token)

end Scope

/-- Go `*LoxError`: message text plus the source range it applies to
(`AddFromToken` uses the token's start and end). -/
structure Diag where
  msg : String
  startPos : Nat
  endPos : Nat
deriving DecidableEq, Repr

/-- `AddFromToken tok msg`: a diagnostic at the token's range. -/
def mkDiag (tok : Token) (msg : String) : Diag :=
  ⟨msg, tok.startPos, tok.endPos⟩

/-- Ordering used by `LoxErrors.Err`: by start position. -/
def diagLE (d1 d2 : Diag) : Bool :=
  d1.startPos ≤ d2.startPos

/-- Go `LoxErrors.Err`'s sort (`slices.SortFunc` comparing start positions),
modelled with insertion sort. -/
def insertDiag (d : Diag) : List Diag → List Diag
  | [] => [d]
  | d' :: rest => if diagLE d d' then d :: d' :: rest else d' :: insertDiag d rest

/-- Sort a diagnostic list by source-range start position. -/
def sortDiags : List Diag → List Diag
  | [] => []
  | d :: rest => insertDiag d (sortDiags rest)

/-- Go `resolver`: the scope stack (head = innermost scope), the resolution
result `declDistancesByTok`, and the accumulated diagnostics `errs`. -/
structure Resolver where
  scopes : List Scope
  declDistances : List (Token × Nat)
  errs : List Diag
deriving DecidableEq, Repr

/-- Go map write into `declDistancesByTok`. -/
def setDist (m : List (Token × Nat)) (tok : Token) (d : Nat) : List (Token × Nat) :=
  match m with
  | [] => [(tok, d)]
  | (t, v) :: rest => if t = tok then (tok, d) :: rest else (t, v) :: setDist rest tok d

/-- Go map read from `declDistancesByTok`. -/
def lookupDist (m : List (Token × Nat)) (tok : Token) : Option Nat :=
  match m with
  | [] => none
  | (t, v) :: rest => if t = tok then some v else lookupDist rest tok

/-- Go `newResolver`. -/
def newResolver : Resolver :=
  { scopes := [], declDistances := [], errs := [] }

/-- First half of Go `resolver.beginScope`: push an empty scope. -/
def beginScope (r : Resolver) : Resolver :=
  { r with scopes := ([] : Scope) :: r.scopes }

/-- The closure returned by Go `resolver.beginScope`: pop the innermost scope
and emit one "declared but never used" diagnostic, at the binding's origin
token, for every binding in it with `used = false`.  The resolver only calls
it after a matching push, so the empty-stack case (a Go panic) is modelled as
the identity. -/
def endScope (r : Resolver) : Resolver :=
  match r.scopes with
  | [] => r
  | s :: rest =>
    { r with
      scopes := rest
      errs := r.errs ++ s.UnusedIdents.map
        (fun tok => mkDiag tok (tok.lexeme ++ " has been declared but is never used")) }

/-- Go `resolver.declareIdent`: no-op on an empty stack (the global scope is
never tracked); on redeclaration in the innermost scope, emit an "already
declared" diagnostic at the new token and leave the first binding untouched;
otherwise declare. -/
def declareIdent (r : Resolver) (tok : Token) : Resolver :=
  match r.scopes with
  | [] => r
  | s :: rest =>
    if s.IsDeclared tok then
      { r with errs := r.errs ++ [mkDiag tok (tok.lexeme ++ " has already been declared")] }
    else
      { r with scopes := s.Declare tok :: rest }

/-- The loop of Go `resolver.defineIdent`: mark the identifier defined in the
innermost scope that declares it; a miss everywhere is a silent no-op. -/
def defineScopes (tok : Token) : List Scope → List Scope
  | [] => []
  | s :: rest =>
    if s.IsDeclared tok then s.Define tok :: rest
    else s :: defineScopes tok rest

/-- Go `resolver.defineIdent`. -/
def defineIdent (r : Resolver) (tok : Token) : Resolver :=
  { r with scopes := defineScopes tok r.scopes }

/-- Go `identOp`. -/
inductive IdentOp where
  | read
  | write
deriving DecidableEq, Repr

/-- Result of the search loop in Go `resolver.resolveIdent` when the lexeme
is found: the updated stack, whether a "not defined" diagnostic fires, and
the distance to record (`none` exactly when the diagnostic fires). -/
structure FoundIdent where
  scopes : List Scope
  notDefinedDiag : Bool
  dist : Option Nat
deriving DecidableEq, Repr

/-- The loop of Go `resolver.resolveIdent` (`for i := len-1; i >= 0; i--`),
as recursion from the innermost scope.  On the first scope declaring the
lexeme it marks the binding used; the recorded distance is the number of
scopes skipped, which equals the Go expression `scopes.Len() - 1 - i`. -/
def resolveIdentScopes (tok : Token) (op : IdentOp) : List Scope → Option FoundIdent
  | [] => none
  | s :: rest =>
    if s.IsDeclared tok then
      some
        { scopes := s.Use tok :: rest
          notDefinedDiag := !s.IsDefined tok && op = IdentOp.read
          dist := if !s.IsDefined tok && op = IdentOp.read then none else some 0 }
    else
      match resolveIdentScopes tok op rest with
      | none => none
      | some f => some { scopes := s :: f.scopes, notDefinedDiag := f.notDefinedDiag
                         dist := f.dist.map (· + 1) }

/-- Go `resolver.resolveIdent`: apply the loop's outcome to the state. -/
def resolveIdent (r : Resolver) (tok : Token) (op : IdentOp) : Resolver :=
  match resolveIdentScopes tok op r.scopes with
  | none => r
  | some f =>
    { scopes := f.scopes
      errs :=
        if f.notDefinedDiag then
          r.errs ++ [mkDiag tok (tok.lexeme ++ " has not been defined")]
        else r.errs
      declDistances :=
        match f.dist with
        | some d => setDist r.declDistances tok d
        | none => r.declDistances }

-- Go `ast.Expr` and `ast.Stmt`: the closed variant sets the resolver
-- dispatches over.
mutual
inductive Expr where
  | funExpr (params : List Token) (body : List Stmt)
  | groupExpr (e : Expr)
  | literalExpr
  | variableExpr (name : Token)
  | callExpr (callee : Expr) (args : List Expr)
  | unaryExpr (right : Expr)
  | binaryExpr (left right : Expr)
  | ternaryExpr (condition thenE elseE : Expr)
  | assignmentExpr (left : Token) (right : Expr)
deriving Repr

inductive Stmt where
  | varDecl (name : Token) (initialiser : Option Expr)
  | funDecl (name : Token) (params : List Token) (body : List Stmt)
  | exprStmt (e : Expr)
  | printStmt (e : Expr)
  | blockStmt (stmts : List Stmt)
  | ifStmt (condition : Expr) (thenS : Stmt) (elseS : Option Stmt)
  | whileStmt (condition : Expr) (body : Stmt)
  | forStmt (initialise : Option Stmt) (condition : Option Expr) (update : Option Expr)
      (body : Stmt)
  | breakStmt
  | continueStmt
  | returnStmt (value : Option Expr)
deriving Repr
end

/-- Go `ast.Program`: an ordered statement sequence. -/
abbrev Program : Type := List Stmt

/-- Declare-and-define of one function parameter (the loop body of Go
`resolver.resolveFun`). -/
def declareDefineParam (r : Resolver) (p : Token) : Resolver :=
  defineIdent (declareIdent r p) p

mutual
/-- Go `resolver.resolveExpr` with the per-variant helpers
(`resolveGroupExpr`, `resolveLiteralExpr`, `resolveVariableExpr`,
`resolveCallExpr`, `resolveUnaryExpr`, `resolveBinaryExpr`,
`resolveTernaryExpr`, `resolveAssignmentExpr`, `resolveFunExpr`) inlined at
their match arms. -/
def resolveExpr (r : Resolver) : Expr → Resolver
  | .funExpr params body =>
    -- resolveFunExpr, with resolveFun's body inlined for structural recursion
    endScope (resolveStmts (params.foldl declareDefineParam (beginScope r)) body)
  | .groupExpr e => resolveExpr r e
  | .literalExpr => r
  | .variableExpr name =>
    -- resolveVariableExpr: a blank-identifier read is always a diagnostic
    if name.lexeme = blankIdent then
      { r with errs := r.errs ++
          [mkDiag name "blank identifier _ cannot be used in a non-assignment expression"] }
    else resolveIdent r name IdentOp.read
  | .callExpr callee args => resolveExprs (resolveExpr r callee) args
  | .unaryExpr right => resolveExpr r right
  | .binaryExpr left right => resolveExpr (resolveExpr r left) right
  | .ternaryExpr condition thenE elseE =>
    resolveExpr (resolveExpr (resolveExpr r condition) thenE) elseE
  | .assignmentExpr left right =>
    -- resolveAssignmentExpr: rhs first, then write-mode lookup, then define
    defineIdent (resolveIdent (resolveExpr r right) left IdentOp.write) left

/-- The argument loop of Go `resolver.resolveCallExpr`. -/
def resolveExprs (r : Resolver) : List Expr → Resolver
  | [] => r
  | e :: rest => resolveExprs (resolveExpr r e) rest

/-- Go `resolver.resolveStmt` with the per-variant helpers (`resolveVarDecl`,
`resolveFunDecl`, `resolveExprStmt`, `resolvePrintStmt`, `resolveBlockStmt`,
`resolveIfStmt`, `resolveWhileStmt`, `resolveForStmt`, `resolveBreakStmt`,
`resolveContinueStmt`, `resolveReturnStmt`) inlined at their match arms. -/
def resolveStmt (r : Resolver) : Stmt → Resolver
  | .varDecl name (some e) =>
    -- resolveVarDecl with initialiser: resolve it first, then declare, then define
    defineIdent (declareIdent (resolveExpr r e) name) name
  | .varDecl name none => declareIdent r name
  | .funDecl name params body =>
    -- resolveFunDecl: declare and define the name before walking the body,
    -- then resolveFun (inlined for structural recursion)
    endScope (resolveStmts
      (params.foldl declareDefineParam (beginScope (defineIdent (declareIdent r name) name)))
      body)
  | .exprStmt e => resolveExpr r e
  | .printStmt e => resolveExpr r e
  | .blockStmt stmts => endScope (resolveStmts (beginScope r) stmts)
  | .ifStmt condition thenS (some elseS) =>
    resolveStmt (resolveStmt (resolveExpr r condition) thenS) elseS
  | .ifStmt condition thenS none => resolveStmt (resolveExpr r condition) thenS
  | .whileStmt condition body => resolveStmt (resolveExpr r condition) body
  | .forStmt initialise condition update body =>
    -- resolveForStmt: one scope covers initialiser, condition, update and body
    let r1 := beginScope r
    let r2 := match initialise with | some s => resolveStmt r1 s | none => r1
    let r3 := match condition with | some e => resolveExpr r2 e | none => r2
    let r4 := match update with | some e => resolveExpr r3 e | none => r3
    endScope (resolveStmt r4 body)
  | .breakStmt => r
  | .continueStmt => r
  | .returnStmt (some e) => resolveExpr r e
  | .returnStmt none => r

/-- The statement loops of Go `resolver.resolveProgram`,
`resolver.resolveBlockStmt` and `resolver.resolveFun`. -/
def resolveStmts (r : Resolver) : List Stmt → Resolver
  | [] => r
  | s :: rest => resolveStmts (resolveStmt r s) rest
end

/-- Go `resolver.resolveFun`: new scope, declare+define each parameter, walk
the body, end the scope.  (Its body is inlined at the `funExpr` and `funDecl`
match arms above.) -/
def resolveFun (r : Resolver) (params : List Token) (body : List Stmt) : Resolver :=
  endScope (resolveStmts (params.foldl declareDefineParam (beginScope r)) body)

/-- Go `resolver.resolveProgram`. -/
def resolveProgram (r : Resolver) (program : Program) : Resolver :=
  resolveStmts r program

/-- Go `LoxErrors.Err`: `none` when the list is empty, else the list sorted
by start position. -/
def errsErr (errs : List Diag) : Option (List Diag) :=
  match errs with
  | [] => none
  | _ :: _ => some (sortDiags errs)

/-- Go `resolver.Resolve` composed with `resolve`: run the walk from a fresh
resolver; a non-empty diagnostic collection is returned as one combined
failure with no resolution map, an empty one yields the map. -/
def resolve (program : Program) : Except (List Diag) (List (Token × Nat)) :=
  let r := resolveProgram newResolver program
  match errsErr r.errs with
  | some errs => .error errs
  | none => .ok r.declDistances

/-! ### Observation helpers used by the theorems -/

/-- The innermost scope declaring `lex`, together with its depth from the
innermost end of the stack (depth `j` from the head corresponds to Go slice
index `i = length - 1 - j`) and the binding's state there. -/
def findInfo (lex : String) : List Scope → Option (Nat × IdentInfo)
  | [] => none
  | s :: rest =>
    match s.lookup lex with
    | some info => some (0, info)
    | none =>
      match findInfo lex rest with
      | none => none
      | some (j, i) => some (j + 1, i)

/-- Number of diagnostics in a list carrying a given message. -/
def countMsg (l : List Diag) (m : String) : Nat :=
  (l.filter (fun dg => dg.msg = m)).length

/-- The blank-identifier lexeme is not a key of any scope on the stack. -/
def noBlank (r : Resolver) : Prop :=
  ∀ s ∈ r.scopes, s.lookup blankIdent = none

/-- The ordering relation `LoxErrors.Err` sorts by: start position. -/
def diagR (d1 d2 : Diag) : Prop :=
  d1.startPos ≤ d2.startPos

/-! ### Concrete tokens and programs used in the concrete theorems -/

def xDeclTok : Token := ⟨"x", 0, 1⟩
def xDeclTok2 : Token := ⟨"x", 7, 8⟩
def xReadTok : Token := ⟨"x", 100, 101⟩
def xWriteTok : Token := ⟨"x", 9, 10⟩
def xInnerTok : Token := ⟨"x", 20, 21⟩
def xRhsTok : Token := ⟨"x", 24, 25⟩
def fDeclTok : Token := ⟨"f", 0, 1⟩
def fCallTok : Token := ⟨"f", 9, 10⟩
def blankTok : Token := ⟨"_", 0, 1⟩

/-- `var x; var x;` at the top level. -/
def redeclStmts : List Stmt := [.varDecl xDeclTok none, .varDecl xDeclTok2 none]

/-- `{ var x; }` -/
def unusedProgram : Program := [.blockStmt [.varDecl xDeclTok none]]

/-- `{ var x; x = 1; }` -/
def writeUseProgram : Program :=
  [.blockStmt [.varDecl xDeclTok none, .exprStmt (.assignmentExpr xWriteTok .literalExpr)]]

/-- `var x = x;` at the top level, with no outer `x`. -/
def selfInitProgram : Program := [.varDecl xDeclTok (some (.variableExpr xReadTok))]

/-- `{ var x = 1; { var x = x; } }`: the inner initialiser reads `x`. -/
def shadowInitProgram : Program :=
  [.blockStmt [.varDecl xDeclTok (some .literalExpr),
    .blockStmt [.varDecl xInnerTok (some (.variableExpr xRhsTok))]]]

/-- `fun f() { f(); }` at the top level. -/
def selfRecStmts : List Stmt :=
  [.funDecl fDeclTok [] [.exprStmt (.callExpr (.variableExpr fCallTok) [])]]

/-- `{ fun f() { f(); } }`: the same declaration inside a tracked scope. -/
def selfRecBlockProgram : Program := [.blockStmt selfRecStmts]

/-- `{ _ = 5; }`: assignment to the blank identifier inside a scope. -/
def blankAssignProgram : Program :=
  [.blockStmt [.exprStmt (.assignmentExpr blankTok .literalExpr)]]

/-- Origin token of the variable declared by each inner block of the chain
program. -/
def yTok : Token := ⟨"y", 50, 51⟩

/-- The inner part of the block chain: `m + 1` further nested blocks, each
declaring (and initialising) one variable `y`, the innermost one reading
`x`. -/
def chainInner : Nat → Stmt
  | 0 => .blockStmt [.varDecl yTok (some .literalExpr), .exprStmt (.variableExpr xReadTok)]
  | m + 1 => .blockStmt [.varDecl yTok (some .literalExpr), chainInner m]

/-- A chain of `n` nested blocks, each declaring one initialised variable,
the outermost declaring `x` and the innermost reading `x`. -/
def chainProgram : Nat → Program
  | 0 => []
  | 1 => [.blockStmt [.varDecl xDeclTok (some .literalExpr), .exprStmt (.variableExpr xReadTok)]]
  | m + 2 => [.blockStmt [.varDecl xDeclTok (some .literalExpr), chainInner m]]

/-! ### Lemmas about scope lookup and the resolveIdent search loop -/

theorem endScope_declDistances (r : Resolver) :
    (endScope r).declDistances = r.declDistances := by
  obtain ⟨scopes, dists, errs⟩ := r
  cases scopes <;> rfl

theorem Scope.lookup_Use_self (tok : Token) :
    ∀ (s : Scope) (i : IdentInfo), s.lookup tok.lexeme = some i →
      (s.Use tok).lookup tok.lexeme = some { i with used := true }
  | (k', v) :: rest, i, h => by
    by_cases hk : k' = tok.lexeme
    · subst hk
      simp [Scope.lookup] at h
      simp [Scope.Use, Scope.lookup, h]
    · simp [Scope.lookup, hk] at h
      simpa [Scope.Use, Scope.lookup, hk] using Scope.lookup_Use_self tok rest i h

theorem Scope.IsDefined_eq_of_lookup (s : Scope) (tok : Token) (i : IdentInfo)
    (h : s.lookup tok.lexeme = some i) : s.IsDefined tok = i.defined := by
  simp [Scope.IsDefined, h]

theorem findInfo_lt_length (lex : String) :
    ∀ (scopes : List Scope) (j : Nat) (i : IdentInfo),
      findInfo lex scopes = some (j, i) → j < scopes.length
  | s :: rest, j, i, h => by
    cases hs : s.lookup lex with
    | some info =>
      simp only [findInfo, hs, Option.some.injEq, Prod.mk.injEq] at h
      obtain ⟨hj, -⟩ := h
      subst hj
      simp
    | none =>
      cases hrec : findInfo lex rest with
      | none => simp [findInfo, hs, hrec] at h
      | some ji =>
        obtain ⟨j', i'⟩ := ji
        simp only [findInfo, hs, hrec, Option.some.injEq, Prod.mk.injEq] at h
        obtain ⟨hj, -⟩ := h
        subst hj
        have := findInfo_lt_length lex rest j' i' hrec
        simp only [List.length_cons]
        omega

/-- Behaviour of the `resolveIdent` search loop when the lexeme is declared
in some scope on the stack: the innermost such scope (at depth `j` from the
innermost end) gets its binding marked used, the "not defined" flag is up
exactly for an undefined binding read, and the distance returned otherwise is
`j`, the number of scopes skipped. -/
theorem resolveIdentScopes_found (tok : Token) (op : IdentOp) :
    ∀ (scopes : List Scope) (j : Nat) (info : IdentInfo),
      findInfo tok.lexeme scopes = some (j, info) →
      ∃ scopes',
        resolveIdentScopes tok op scopes =
          some ⟨scopes', !info.defined && op = IdentOp.read,
                if !info.defined && op = IdentOp.read then none else some j⟩ ∧
        findInfo tok.lexeme scopes' = some (j, { info with used := true })
  | s :: rest, j, info, h => by
    cases hs : s.lookup tok.lexeme with
    | some i0 =>
      simp only [findInfo, hs, Option.some.injEq, Prod.mk.injEq] at h
      obtain ⟨hj, hinfo⟩ := h
      subst hj
      subst hinfo
      refine ⟨s.Use tok :: rest, ?_, ?_⟩
      · have hdecl : s.IsDeclared tok = true := by simp [Scope.IsDeclared, hs]
        simp only [resolveIdentScopes, hdecl, if_true,
          Scope.IsDefined_eq_of_lookup s tok i0 hs]
      · simp [findInfo, Scope.lookup_Use_self tok s i0 hs]
    | none =>
      cases hrec : findInfo tok.lexeme rest with
      | none => simp [findInfo, hs, hrec] at h
      | some ji =>
        obtain ⟨j', i'⟩ := ji
        simp only [findInfo, hs, hrec, Option.some.injEq, Prod.mk.injEq] at h
        obtain ⟨hj, hinfo⟩ := h
        subst hj
        subst hinfo
        obtain ⟨scopes'', hres, hfind⟩ := resolveIdentScopes_found tok op rest j' i' hrec
        refine ⟨s :: scopes'', ?_, ?_⟩
        · have hdecl : s.IsDeclared tok = false := by simp [Scope.IsDeclared, hs]
          simp only [resolveIdentScopes, hdecl, Bool.false_eq_true, if_false, hres]
          cases hc : (!i'.defined && decide (op = IdentOp.read)) <;> simp [hc]
        · simp [findInfo, hs, hfind]

/-- Reading a binding that is found (at depth `d`) and already defined marks
it used, records distance `d`, and emits nothing. -/
theorem resolveIdent_read_defined (r : Resolver) (tok : Token) (d : Nat) (i : IdentInfo)
    (h : findInfo tok.lexeme r.scopes = some (d, i)) (hd : i.defined = true) :
    ∃ scopes',
      resolveIdent r tok IdentOp.read =
        { scopes := scopes', declDistances := setDist r.declDistances tok d,
          errs := r.errs } ∧
      findInfo tok.lexeme scopes' = some (d, { i with used := true }) := by
  obtain ⟨scopes', hres, hfind⟩ := resolveIdentScopes_found tok IdentOp.read r.scopes d i h
  rw [hd] at hres
  simp only [Bool.not_true, Bool.false_and, Bool.false_eq_true, if_false] at hres
  refine ⟨scopes', ?_, hfind⟩
  simp [resolveIdent, hres]

/-- Distance computed by the read at the bottom of `chainInner m`: the inner
chain pushes `m + 1` scopes on top of a stack in which `x` is declared,
defined, at depth `d`, so the read records distance `m + 1 + d`. -/
theorem chainInner_distance :
    ∀ (m : Nat) (r : Resolver) (d : Nat) (i : IdentInfo),
      findInfo "x" r.scopes = some (d, i) → i.defined = true →
      (resolveStmt r (chainInner m)).declDistances =
        setDist r.declDistances xReadTok (m + 1 + d)
  | 0, r, d, i, h, hd => by
    have h3 : findInfo "x" (([("y", ⟨true, false, yTok⟩)] : Scope) :: r.scopes) =
        some (d + 1, i) := by
      simp [findInfo, Scope.lookup, h]
    obtain ⟨scopes', hres, hfind⟩ := resolveIdent_read_defined
      ⟨([("y", ⟨true, false, yTok⟩)] : Scope) :: r.scopes, r.declDistances, r.errs⟩
      xReadTok (d + 1) i h3 hd
    have harith : d + 1 = 0 + 1 + d := by omega
    rw [harith] at hres
    simp only [yTok, xReadTok] at hres
    simp [chainInner, resolveStmt, resolveStmts, resolveExpr, beginScope, declareIdent,
      defineIdent, defineScopes, Scope.IsDeclared, Scope.lookup, Scope.Declare, Scope.set,
      Scope.Define, blankIdent, xReadTok, yTok, hres, endScope_declDistances]
  | m + 1, r, d, i, h, hd => by
    have h3 : findInfo "x" (([("y", ⟨true, false, yTok⟩)] : Scope) :: r.scopes) =
        some (d + 1, i) := by
      simp [findInfo, Scope.lookup, h]
    have ih := chainInner_distance m
      ⟨([("y", ⟨true, false, yTok⟩)] : Scope) :: r.scopes, r.declDistances, r.errs⟩
      (d + 1) i h3 hd
    have harith : m + 1 + (d + 1) = m + 1 + 1 + d := by omega
    rw [harith] at ih
    simp only [yTok, xReadTok] at ih
    simp only [chainInner]
    simp [resolveStmt, resolveStmts, resolveExpr, beginScope, declareIdent,
      defineIdent, defineScopes, Scope.IsDeclared, Scope.lookup, Scope.Declare, Scope.set,
      Scope.Define, blankIdent, yTok, xReadTok, ih, endScope_declDistances]

/-! ### Preservation of "the blank identifier is never a scope key" -/

theorem Scope.lookup_set_ne (kset klook : String) (v : IdentInfo) (hk : kset ≠ klook) :
    ∀ (s : Scope), (s.set kset v).lookup klook = s.lookup klook
  | [] => by simp [Scope.set, Scope.lookup, hk]
  | (k0, v0) :: rest => by
    by_cases h0 : k0 = kset
    · subst h0
      simp [Scope.set, Scope.lookup, hk]
    · simp [Scope.set, Scope.lookup, h0, Scope.lookup_set_ne kset klook v hk rest]

theorem Scope.lookup_Declare_blank (s : Scope) (tok : Token) :
    (s.Declare tok).lookup blankIdent = s.lookup blankIdent := by
  by_cases h : tok.lexeme = blankIdent
  · simp [Scope.Declare, h]
  · simp [Scope.Declare, h, Scope.lookup_set_ne tok.lexeme blankIdent _ h s]

theorem Scope.lookup_Define_none (tok : Token) (k : String) :
    ∀ (s : Scope), s.lookup k = none → (s.Define tok).lookup k = none
  | [], h => h
  | (k0, v0) :: rest, h => by
    by_cases h0 : k0 = k
    · simp [Scope.lookup, h0] at h
    · have hrest : Scope.lookup rest k = none := by
        simpa [Scope.lookup, h0] using h
      by_cases hd : k0 = tok.lexeme
      · simp [Scope.Define, hd, Scope.lookup, h0, hrest]
        intro hk
        exact absurd (hd.trans hk) h0
      · simp [Scope.Define, hd, Scope.lookup, h0,
          Scope.lookup_Define_none tok k rest hrest]

theorem Scope.lookup_Use_none (tok : Token) (k : String) :
    ∀ (s : Scope), s.lookup k = none → (s.Use tok).lookup k = none
  | [], h => h
  | (k0, v0) :: rest, h => by
    by_cases h0 : k0 = k
    · simp [Scope.lookup, h0] at h
    · have hrest : Scope.lookup rest k = none := by
        simpa [Scope.lookup, h0] using h
      by_cases hd : k0 = tok.lexeme
      · simp [Scope.Use, hd, Scope.lookup, h0, hrest]
        intro hk
        exact absurd (hd.trans hk) h0
      · simp [Scope.Use, hd, Scope.lookup, h0, Scope.lookup_Use_none tok k rest hrest]

theorem defineScopes_lookup_none (tok : Token) (k : String) :
    ∀ (scopes : List Scope), (∀ s ∈ scopes, s.lookup k = none) →
      ∀ s ∈ defineScopes tok scopes, s.lookup k = none
  | [], _, s, hs => absurd hs (by simp [defineScopes])
  | s0 :: rest, hall, s, hs => by
    rw [defineScopes] at hs
    by_cases hd : s0.IsDeclared tok
    · rw [if_pos hd] at hs
      rcases List.mem_cons.1 hs with hs | hs
      · exact hs ▸ Scope.lookup_Define_none tok k s0 (hall s0 (by simp))
      · exact hall s (List.mem_cons_of_mem s0 hs)
    · rw [if_neg hd] at hs
      rcases List.mem_cons.1 hs with hs | hs
      · exact hs ▸ hall s0 (by simp)
      · exact defineScopes_lookup_none tok k rest
          (fun s' hs' => hall s' (List.mem_cons_of_mem s0 hs')) s hs

theorem resolveIdentScopes_lookup_none (tok : Token) (op : IdentOp) (k : String) :
    ∀ (scopes : List Scope) (f : FoundIdent),
      (∀ s ∈ scopes, s.lookup k = none) →
      resolveIdentScopes tok op scopes = some f →
      ∀ s ∈ f.scopes, s.lookup k = none
  | [], f, _, hres => by simp [resolveIdentScopes] at hres
  | s0 :: rest, f, hall, hres => by
    by_cases hd : s0.IsDeclared tok
    · rw [resolveIdentScopes, if_pos hd, Option.some_inj] at hres
      subst hres
      intro s hs
      rcases List.mem_cons.1 hs with hs | hs
      · exact hs ▸ Scope.lookup_Use_none tok k s0 (hall s0 (by simp))
      · exact hall s (List.mem_cons_of_mem s0 hs)
    · rw [resolveIdentScopes, if_neg hd] at hres
      cases hrec : resolveIdentScopes tok op rest with
      | none => rw [hrec] at hres; cases hres
      | some f' =>
        rw [hrec, Option.some_inj] at hres
        subst hres
        intro s hs
        rcases List.mem_cons.1 hs with hs | hs
        · exact hs ▸ hall s0 (by simp)
        · exact resolveIdentScopes_lookup_none tok op k rest f'
            (fun s' hs' => hall s' (List.mem_cons_of_mem s0 hs')) hrec s hs

theorem noBlank_beginScope (r : Resolver) (h : noBlank r) : noBlank (beginScope r) := by
  intro s hs
  rcases List.mem_cons.1 hs with hs | hs
  · subst hs; rfl
  · exact h s hs

theorem noBlank_endScope (r : Resolver) (h : noBlank r) : noBlank (endScope r) := by
  obtain ⟨scopes, dists, errs⟩ := r
  cases scopes with
  | nil => exact h
  | cons s0 rest => exact fun s hs => h s (List.mem_cons_of_mem s0 hs)

theorem noBlank_declareIdent (r : Resolver) (tok : Token) (h : noBlank r) :
    noBlank (declareIdent r tok) := by
  obtain ⟨scopes, dists, errs⟩ := r
  cases scopes with
  | nil => exact h
  | cons s0 rest =>
    by_cases hd : s0.IsDeclared tok
    · simpa [declareIdent, hd] using h
    · simp only [declareIdent, hd, Bool.false_eq_true, if_false]
      intro s hs
      rcases List.mem_cons.1 hs with hs | hs
      · subst hs
        rw [Scope.lookup_Declare_blank]
        exact h s0 (by simp)
      · exact h s (List.mem_cons_of_mem s0 hs)

theorem noBlank_defineIdent (r : Resolver) (tok : Token) (h : noBlank r) :
    noBlank (defineIdent r tok) :=
  defineScopes_lookup_none tok blankIdent r.scopes h

theorem noBlank_resolveIdent (r : Resolver) (tok : Token) (op : IdentOp) (h : noBlank r) :
    noBlank (resolveIdent r tok op) := by
  cases hres : resolveIdentScopes tok op r.scopes with
  | none => simpa [resolveIdent, hres] using h
  | some f =>
    intro s hs
    refine resolveIdentScopes_lookup_none tok op blankIdent r.scopes f h hres s ?_
    simpa [resolveIdent, hres] using hs

theorem noBlank_declareDefineParam (r : Resolver) (p : Token) (h : noBlank r) :
    noBlank (declareDefineParam r p) :=
  noBlank_defineIdent _ p (noBlank_declareIdent r p h)

theorem noBlank_foldlParams :
    ∀ (params : List Token) (r : Resolver), noBlank r →
      noBlank (params.foldl declareDefineParam r)
  | [], _, h => h
  | p :: rest, r, h =>
    noBlank_foldlParams rest (declareDefineParam r p) (noBlank_declareDefineParam r p h)

mutual

theorem noBlank_resolveExpr :
    ∀ (r : Resolver) (e : Expr), noBlank r → noBlank (resolveExpr r e)
  | r, .funExpr params body, h => by
    simp only [resolveExpr]
    exact noBlank_endScope _ (noBlank_resolveStmts _ body
      (noBlank_foldlParams params _ (noBlank_beginScope r h)))
  | r, .groupExpr e, h => noBlank_resolveExpr r e h
  | _, .literalExpr, h => h
  | r, .variableExpr name, h => by
    simp only [resolveExpr]
    by_cases hn : name.lexeme = blankIdent
    · rw [if_pos hn]
      exact h
    · rw [if_neg hn]
      exact noBlank_resolveIdent r name IdentOp.read h
  | r, .callExpr callee args, h =>
    noBlank_resolveExprs _ args (noBlank_resolveExpr r callee h)
  | r, .unaryExpr e, h => noBlank_resolveExpr r e h
  | r, .binaryExpr l rr, h => noBlank_resolveExpr _ rr (noBlank_resolveExpr r l h)
  | r, .ternaryExpr c t e, h =>
    noBlank_resolveExpr _ e (noBlank_resolveExpr _ t (noBlank_resolveExpr r c h))
  | r, .assignmentExpr left right, h =>
    noBlank_defineIdent _ left
      (noBlank_resolveIdent _ left IdentOp.write (noBlank_resolveExpr r right h))

theorem noBlank_resolveExprs :
    ∀ (r : Resolver) (es : List Expr), noBlank r → noBlank (resolveExprs r es)
  | _, [], h => h
  | r, e :: rest, h => noBlank_resolveExprs _ rest (noBlank_resolveExpr r e h)

theorem noBlank_resolveStmt :
    ∀ (r : Resolver) (st : Stmt), noBlank r → noBlank (resolveStmt r st)
  | r, .varDecl name (some e), h =>
    noBlank_defineIdent _ name (noBlank_declareIdent _ name (noBlank_resolveExpr r e h))
  | r, .varDecl name none, h => noBlank_declareIdent r name h
  | r, .funDecl name params body, h => by
    simp only [resolveStmt]
    exact noBlank_endScope _ (noBlank_resolveStmts _ body (noBlank_foldlParams params _
      (noBlank_beginScope _ (noBlank_defineIdent _ name (noBlank_declareIdent r name h)))))
  | r, .exprStmt e, h => noBlank_resolveExpr r e h
  | r, .printStmt e, h => noBlank_resolveExpr r e h
  | r, .blockStmt stmts, h =>
    noBlank_endScope _ (noBlank_resolveStmts _ stmts (noBlank_beginScope r h))
  | r, .ifStmt c t (some e), h =>
    noBlank_resolveStmt _ e (noBlank_resolveStmt _ t (noBlank_resolveExpr r c h))
  | r, .ifStmt c t none, h => noBlank_resolveStmt _ t (noBlank_resolveExpr r c h)
  | r, .whileStmt c b, h => noBlank_resolveStmt _ b (noBlank_resolveExpr r c h)
  | r, .forStmt none none none body, h => by
    simp only [resolveStmt]
    exact noBlank_endScope _ (noBlank_resolveStmt _ body (noBlank_beginScope r h))
  | r, .forStmt none none (some ue) body, h => by
    simp only [resolveStmt]
    exact noBlank_endScope _ (noBlank_resolveStmt _ body
      (noBlank_resolveExpr _ ue (noBlank_beginScope r h)))
  | r, .forStmt none (some ce) none body, h => by
    simp only [resolveStmt]
    exact noBlank_endScope _ (noBlank_resolveStmt _ body
      (noBlank_resolveExpr _ ce (noBlank_beginScope r h)))
  | r, .forStmt none (some ce) (some ue) body, h => by
    simp only [resolveStmt]
    exact noBlank_endScope _ (noBlank_resolveStmt _ body
      (noBlank_resolveExpr _ ue (noBlank_resolveExpr _ ce (noBlank_beginScope r h))))
  | r, .forStmt (some si) none none body, h => by
    simp only [resolveStmt]
    exact noBlank_endScope _ (noBlank_resolveStmt _ body
      (noBlank_resolveStmt _ si (noBlank_beginScope r h)))
  | r, .forStmt (some si) none (some ue) body, h => by
    simp only [resolveStmt]
    exact noBlank_endScope _ (noBlank_resolveStmt _ body
      (noBlank_resolveExpr _ ue (noBlank_resolveStmt _ si (noBlank_beginScope r h))))
  | r, .forStmt (some si) (some ce) none body, h => by
    simp only [resolveStmt]
    exact noBlank_endScope _ (noBlank_resolveStmt _ body
      (noBlank_resolveExpr _ ce (noBlank_resolveStmt _ si (noBlank_beginScope r h))))
  | r, .forStmt (some si) (some ce) (some ue) body, h => by
    simp only [resolveStmt]
    exact noBlank_endScope _ (noBlank_resolveStmt _ body
      (noBlank_resolveExpr _ ue (noBlank_resolveExpr _ ce
        (noBlank_resolveStmt _ si (noBlank_beginScope r h)))))
  | r, .breakStmt, h => h
  | r, .continueStmt, h => h
  | r, .returnStmt (some e), h => noBlank_resolveExpr r e h
  | r, .returnStmt none, h => h

theorem noBlank_resolveStmts :
    ∀ (r : Resolver) (l : List Stmt), noBlank r → noBlank (resolveStmts r l)
  | _, [], h => h
  | r, s :: rest, h => noBlank_resolveStmts _ rest (noBlank_resolveStmt r s h)

end

/-! ### Insertion-sort lemmas for the diagnostic ordering -/

theorem diagLE_eq_true_iff (d1 d2 : Diag) : diagLE d1 d2 = true ↔ diagR d1 d2 := by
  simp [diagLE, diagR]

theorem insertDiag_perm (d : Diag) : ∀ (l : List Diag), (insertDiag d l).Perm (d :: l)
  | [] => List.Perm.refl _
  | d' :: rest => by
    cases hc : diagLE d d' with
    | true => simp [insertDiag, hc]
    | false =>
      simp only [insertDiag, hc, Bool.false_eq_true, if_false]
      exact ((insertDiag_perm d rest).cons d').trans (List.Perm.swap d d' rest)

theorem sortDiags_perm : ∀ (l : List Diag), (sortDiags l).Perm l
  | [] => List.Perm.refl _
  | d :: rest => (insertDiag_perm d (sortDiags rest)).trans ((sortDiags_perm rest).cons d)

theorem insertDiag_sorted (d : Diag) :
    ∀ (l : List Diag), List.Sorted diagR l → List.Sorted diagR (insertDiag d l)
  | [], _ => by simp [insertDiag]
  | d' :: rest, hs => by
    rw [List.sorted_cons] at hs
    obtain ⟨hall, hrest⟩ := hs
    cases hc : diagLE d d' with
    | true =>
      have hdd' : diagR d d' := (diagLE_eq_true_iff d d').1 hc
      simp only [insertDiag, hc, if_true]
      rw [List.sorted_cons]
      refine ⟨?_, List.sorted_cons.2 ⟨hall, hrest⟩⟩
      intro b hb
      rcases List.mem_cons.1 hb with hb | hb
      · exact hb ▸ hdd'
      · exact Nat.le_trans hdd' (hall b hb)
    | false =>
      have hd'd : diagR d' d := by
        have : ¬d.startPos ≤ d'.startPos := by
          intro hle
          rw [show diagLE d d' = true from by simp [diagLE, hle]] at hc
          cases hc
        simp only [diagR]
        omega
      simp only [insertDiag, hc, Bool.false_eq_true, if_false]
      rw [List.sorted_cons]
      refine ⟨?_, insertDiag_sorted d rest hrest⟩
      intro b hb
      rcases List.mem_cons.1 ((insertDiag_perm d rest).mem_iff.1 hb) with hb | hb
      · exact hb ▸ hd'd
      · exact hall b hb

theorem sortDiags_sorted : ∀ (l : List Diag), List.Sorted diagR (sortDiags l)
  | [] => List.sorted_nil
  | d :: rest => insertDiag_sorted d (sortDiags rest) (sortDiags_sorted rest)

/-! ### Claim theorems -/

/-- Claim C8: the overall result of `Resolve` — an empty diagnostic
collection yields the resolution map as success; a non-empty one is sorted
by source-range start position (the output is sorted and a permutation of
the collected diagnostics) and returned as one combined failure carrying no
resolution map. -/
theorem resolve_result_policy (p : Program) :
    ((resolveProgram newResolver p).errs = [] →
      resolve p = Except.ok (resolveProgram newResolver p).declDistances) ∧
    ((resolveProgram newResolver p).errs ≠ [] →
      resolve p = Except.error (sortDiags (resolveProgram newResolver p).errs) ∧
      List.Sorted diagR (sortDiags (resolveProgram newResolver p).errs) ∧
      (sortDiags (resolveProgram newResolver p).errs).Perm
        (resolveProgram newResolver p).errs) := by
  constructor
  · intro h
    simp [resolve, errsErr, h]
  · intro h
    refine ⟨?_, sortDiags_sorted _, sortDiags_perm _⟩
    cases herrs : (resolveProgram newResolver p).errs with
    | nil => exact absurd herrs h
    | cons d rest => simp [resolve, errsErr, herrs]

/-- Claim C8, witness: the empty program succeeds with its (empty) map;
`{ var x; }` fails with its sorted diagnostics. -/
theorem resolve_result_policy_witness :
    resolve ([] : Program) = Except.ok (resolveProgram newResolver []).declDistances ∧
    (resolve unusedProgram =
      Except.error (sortDiags (resolveProgram newResolver unusedProgram).errs) ∧
      List.Sorted diagR (sortDiags (resolveProgram newResolver unusedProgram).errs) ∧
      (sortDiags (resolveProgram newResolver unusedProgram).errs).Perm
        (resolveProgram newResolver unusedProgram).errs) :=
  ⟨(resolve_result_policy []).1 rfl, (resolve_result_policy unusedProgram).2 (by decide)⟩

/-- Claim C1, counterexample: for the chain of 2 nested blocks the recorded
distance for the innermost read of the outermost variable is 1, not 2. -/
theorem chain_distance_counterexample :
    lookupDist (resolveProgram newResolver (chainProgram 2)).declDistances xReadTok =
      some 1 ∧ (some 1 : Option Nat) ≠ some 2 :=
  ⟨by decide, by decide⟩

/-- Claim C1, amended: for a chain of `n ≥ 1` nested blocks, each declaring
one variable, where the innermost block reads the variable declared in the
outermost block, the recorded distance is `n - 1` (the read sits under
`n - 1` scopes above the declaring one). -/
theorem chain_distance (n : Nat) (h : 1 ≤ n) :
    lookupDist (resolveProgram newResolver (chainProgram n)).declDistances xReadTok =
      some (n - 1) := by
  match n, h with
  | 1, _ => decide
  | m + 2, _ =>
    have hx : findInfo "x"
        (⟨[[("x", ⟨true, false, xDeclTok⟩)]], [], []⟩ : Resolver).scopes =
        some (0, ⟨true, false, xDeclTok⟩) := by decide
    have haux := chainInner_distance m ⟨[[("x", ⟨true, false, xDeclTok⟩)]], [], []⟩
      0 ⟨true, false, xDeclTok⟩ hx rfl
    simp only [xDeclTok, xReadTok] at haux
    simp only [chainProgram, resolveProgram]
    simp [resolveStmt, resolveStmts, resolveExpr, beginScope, newResolver, declareIdent,
      defineIdent, defineScopes, Scope.IsDeclared, Scope.lookup, Scope.Declare, Scope.set,
      Scope.Define, blankIdent, xDeclTok, xReadTok, haux, endScope_declDistances,
      lookupDist, setDist]

/-- Claim C1, witness for the amended theorem: the chain of 3 blocks records
distance 2. -/
theorem chain_distance_witness :
    lookupDist (resolveProgram newResolver (chainProgram 3)).declDistances xReadTok =
      some 2 :=
  chain_distance 3 (by decide)

/-- Claim C2, counterexample: for the top-level program `var x; var x;` the
resolver emits zero "already declared" diagnostics, not exactly one —
`declareIdent` returns immediately because the global scope is never pushed
onto the stack. -/
theorem redecl_top_level_no_diag :
    countMsg (resolveProgram newResolver redeclStmts).errs "x has already been declared" = 0 ∧
    (0 : Nat) ≠ 1 :=
  ⟨by decide, by decide⟩

/-- Claim C2, amended: for `var x; var x;` inside a tracked scope, the
resolver emits exactly one "already declared" diagnostic, positioned at the
second declaration's token, and the first declaration's binding record is
left unchanged (still undefined, unused, with the first token as origin). -/
theorem redecl_in_scope_one_diag :
    (resolveStmts (beginScope newResolver) redeclStmts).errs =
      [mkDiag xDeclTok2 "x has already been declared"] ∧
    (resolveStmts (beginScope newResolver) redeclStmts).scopes =
      [[("x", ⟨false, false, xDeclTok⟩)]] ∧
    countMsg (resolveProgram newResolver [.blockStmt redeclStmts]).errs
      "x has already been declared" = 1 :=
  ⟨by decide, by decide, by decide⟩

/-- Claim C3: a variable declaration with an initialiser resolves the
initialiser before declaring the name; `var x = x;` with no outer `x` yields
no diagnostic and no resolution-map entry (deferred to dynamic resolution),
and in `{ var x = 1; { var x = x; } }` the inner right-hand `x` resolves to
the outer binding at distance 1, never the fresh one, with no "not defined"
diagnostic. -/
theorem varDecl_resolves_initialiser_first :
    (∀ (r : Resolver) (name : Token) (e : Expr),
      resolveStmt r (.varDecl name (some e)) =
        defineIdent (declareIdent (resolveExpr r e) name) name) ∧
    (resolveProgram newResolver selfInitProgram).errs = [] ∧
    (resolveProgram newResolver selfInitProgram).declDistances = [] ∧
    lookupDist (resolveProgram newResolver shadowInitProgram).declDistances xRhsTok = some 1 ∧
    countMsg (resolveProgram newResolver shadowInitProgram).errs "x has not been defined" = 0 :=
  ⟨fun _ _ _ => rfl, by decide, by decide, by decide, by decide⟩

/-- Claim C5: popping a scope emits one "declared but never used" diagnostic,
at the binding's origin token, for exactly the bindings with `used = false`;
concretely `{ var x; }` yields exactly one such diagnostic and
`{ var x; x = 1; }` yields none (a write counts as a use). -/
theorem endScope_unused_diags (r : Resolver) (s : Scope) (rest : List Scope)
    (h : r.scopes = s :: rest) :
    ((endScope r).scopes = rest ∧
     (endScope r).errs = r.errs ++ (s.filter (fun kv => !kv.2.used)).map
       (fun kv => mkDiag kv.2.token (kv.2.token.lexeme ++ " has been declared but is never used"))) ∧
    countMsg (resolveProgram newResolver unusedProgram).errs
      "x has been declared but is never used" = 1 ∧
    countMsg (resolveProgram newResolver writeUseProgram).errs
      "x has been declared but is never used" = 0 := by
  obtain ⟨scopes, dists, errs⟩ := r
  cases h
  refine ⟨⟨rfl, ?_⟩, by decide, by decide⟩
  simp [endScope, Scope.UnusedIdents, List.map_map, Function.comp_def]

/-- Claim C5, witness: `endScope_unused_diags` applied to a concrete state
holding one unused binding for `x`. -/
theorem endScope_unused_diags_witness :
    ((endScope ⟨[[("x", ⟨false, false, xDeclTok⟩)]], [], []⟩).scopes = ([] : List Scope) ∧
     (endScope ⟨[[("x", ⟨false, false, xDeclTok⟩)]], [], []⟩).errs =
       ([] : List Diag) ++ (([("x", ⟨false, false, xDeclTok⟩)] : Scope).filter
           (fun kv => !kv.2.used)).map
         (fun kv => mkDiag kv.2.token (kv.2.token.lexeme ++ " has been declared but is never used"))) ∧
    countMsg (resolveProgram newResolver unusedProgram).errs
      "x has been declared but is never used" = 1 ∧
    countMsg (resolveProgram newResolver writeUseProgram).errs
      "x has been declared but is never used" = 0 :=
  endScope_unused_diags ⟨[[("x", ⟨false, false, xDeclTok⟩)]], [], []⟩
    [("x", ⟨false, false, xDeclTok⟩)] [] rfl

/-- Claim C6: a bare identifier read of the blank identifier always appends
exactly one "blank identifier" diagnostic and changes nothing else,
regardless of binding state; `{ _ = 5; }` produces no diagnostic; and the
blank-identifier lexeme is never a key in any scope mapping (the whole walk
preserves that invariant from any state satisfying it, in particular the
fresh empty one). -/
theorem blank_identifier_policy :
    (∀ (r : Resolver) (name : Token), name.lexeme = blankIdent →
      resolveExpr r (.variableExpr name) =
        { r with errs := r.errs ++
            [mkDiag name "blank identifier _ cannot be used in a non-assignment expression"] }) ∧
    (resolveProgram newResolver blankAssignProgram).errs = [] ∧
    (∀ (r : Resolver) (p : Program), noBlank r → noBlank (resolveProgram r p)) := by
  refine ⟨?_, by decide, ?_⟩
  · intro r name hn
    simp [resolveExpr, hn]
  · intro r p h
    exact noBlank_resolveStmts r p h

/-- Claim C6, witness: the blank read from a fresh state emits exactly the
one diagnostic, and the walk over `{ _ = 5; }` keeps every scope free of the
blank-identifier key. -/
theorem blank_identifier_policy_witness :
    resolveExpr newResolver (.variableExpr blankTok) =
      { newResolver with errs :=
          [mkDiag blankTok "blank identifier _ cannot be used in a non-assignment expression"] } ∧
    noBlank (resolveProgram newResolver blankAssignProgram) :=
  ⟨blank_identifier_policy.1 newResolver blankTok rfl,
   blank_identifier_policy.2.2 newResolver blankAssignProgram
     (fun s hs => absurd hs (by simp [newResolver]))⟩

/-- Claim C7: a function declaration declares and defines its own name before
its body is walked (then `resolveFun` pushes a scope, declares and defines
the parameters, walks the body, and pops); `fun f() { f(); }` produces no
diagnostics — at the top level the inner call is deferred (no map entry),
and inside a tracked scope it resolves at distance 1. -/
theorem funDecl_defines_before_body :
    (∀ (r : Resolver) (name : Token) (params : List Token) (body : List Stmt),
      resolveStmt r (.funDecl name params body) =
        resolveFun (defineIdent (declareIdent r name) name) params body) ∧
    (resolveProgram newResolver selfRecStmts).errs = [] ∧
    (resolveProgram newResolver selfRecStmts).declDistances = [] ∧
    (resolveProgram newResolver selfRecBlockProgram).errs = [] ∧
    lookupDist (resolveProgram newResolver selfRecBlockProgram).declDistances fCallTok = some 1 :=
  ⟨fun _ _ _ _ => rfl, by decide, by decide, by decide, by decide⟩

/-- Claim C4: when the lookup finds the lexeme in the innermost scope that
contains it (at depth `j`, i.e. Go slice index `i = length - 1 - j`), the
binding is marked used; a "not defined" diagnostic is emitted and no distance
recorded if and only if the mode is read and the binding is undefined; in
every other found case the distance `length - 1 - i = length - 1 -
(length - 1 - j)` is recorded in the resolution result keyed by the token. -/
theorem resolveIdent_found_spec (r : Resolver) (tok : Token) (op : IdentOp)
    (j : Nat) (info : IdentInfo)
    (h : findInfo tok.lexeme r.scopes = some (j, info)) :
    findInfo tok.lexeme (resolveIdent r tok op).scopes = some (j, { info with used := true }) ∧
    ((op = IdentOp.read ∧ info.defined = false) →
      (resolveIdent r tok op).errs =
        r.errs ++ [mkDiag tok (tok.lexeme ++ " has not been defined")] ∧
      (resolveIdent r tok op).declDistances = r.declDistances) ∧
    (¬(op = IdentOp.read ∧ info.defined = false) →
      (resolveIdent r tok op).errs = r.errs ∧
      (resolveIdent r tok op).declDistances =
        setDist r.declDistances tok (r.scopes.length - 1 - (r.scopes.length - 1 - j))) := by
  obtain ⟨scopes', hres, hfind⟩ := resolveIdentScopes_found tok op r.scopes j info h
  have hlt : j < r.scopes.length := findInfo_lt_length tok.lexeme r.scopes j info h
  have harith : r.scopes.length - 1 - (r.scopes.length - 1 - j) = j := by omega
  rw [harith]
  by_cases hc : op = IdentOp.read ∧ info.defined = false
  · obtain ⟨hop, hdef⟩ := hc
    have hb : (!info.defined && decide (op = IdentOp.read)) = true := by
      simp [hdef, hop]
    rw [hb] at hres
    refine ⟨?_, fun _ => ⟨?_, ?_⟩, fun hn => absurd ⟨hop, hdef⟩ hn⟩ <;>
      simp [resolveIdent, hres, hfind]
  · have hb : (!info.defined && decide (op = IdentOp.read)) = false := by
      rcases Decidable.em (op = IdentOp.read) with hop | hop
      · have hd : info.defined = true := by
          rcases Bool.eq_false_or_eq_true info.defined with hd | hd
          · exact hd
          · exact absurd ⟨hop, hd⟩ hc
        simp [hd]
      · simp [hop]
    rw [hb] at hres
    refine ⟨?_, fun hcc => absurd hcc hc, fun _ => ⟨?_, ?_⟩⟩ <;>
      simp [resolveIdent, hres, hfind]

/-- Claim C4, witness: a read of a defined binding in the innermost of one
scope records distance `1 - 1 - (1 - 1 - 0) = 0` and emits nothing. -/
theorem resolveIdent_found_spec_witness :
    findInfo "x" (resolveIdent ⟨[[("x", ⟨true, false, xDeclTok⟩)]], [], []⟩
        xReadTok IdentOp.read).scopes = some (0, ⟨true, true, xDeclTok⟩) ∧
    ((IdentOp.read = IdentOp.read ∧ (true : Bool) = false) →
      (resolveIdent ⟨[[("x", ⟨true, false, xDeclTok⟩)]], [], []⟩ xReadTok IdentOp.read).errs =
        [] ++ [mkDiag xReadTok ("x" ++ " has not been defined")] ∧
      (resolveIdent ⟨[[("x", ⟨true, false, xDeclTok⟩)]], [], []⟩ xReadTok
        IdentOp.read).declDistances = []) ∧
    (¬(IdentOp.read = IdentOp.read ∧ (true : Bool) = false) →
      (resolveIdent ⟨[[("x", ⟨true, false, xDeclTok⟩)]], [], []⟩ xReadTok IdentOp.read).errs =
        [] ∧
      (resolveIdent ⟨[[("x", ⟨true, false, xDeclTok⟩)]], [], []⟩ xReadTok
        IdentOp.read).declDistances = setDist [] xReadTok (1 - 1 - (1 - 1 - 0))) :=
  resolveIdent_found_spec ⟨[[("x", ⟨true, false, xDeclTok⟩)]], [], []⟩ xReadTok IdentOp.read
    0 ⟨true, false, xDeclTok⟩ (by decide)

/-- Claim C9: the resolver is deterministic — two runs over the same AST from
fresh resolver states produce identical resolution maps and identical
diagnostic lists (the embedding is a pure function of the program). -/
theorem resolver_deterministic (p : Program) (r1 r2 : Resolver)
    (h1 : r1 = newResolver) (h2 : r2 = newResolver) :
    (resolveProgram r1 p).declDistances = (resolveProgram r2 p).declDistances ∧
    (resolveProgram r1 p).errs = (resolveProgram r2 p).errs := by
  subst h1; subst h2; exact ⟨rfl, rfl⟩

/-- Claim C9, witness: two fresh runs over `{ var x; }` agree. -/
theorem resolver_deterministic_witness :
    (resolveProgram newResolver unusedProgram).declDistances =
      (resolveProgram newResolver unusedProgram).declDistances ∧
    (resolveProgram newResolver unusedProgram).errs =
      (resolveProgram newResolver unusedProgram).errs :=
  resolver_deterministic unusedProgram newResolver newResolver rfl rfl

/-- `defineScopes` leaves the stack unchanged when no scope declares the
lexeme. -/
theorem defineScopes_not_declared (tok : Token) :
    ∀ (scopes : List Scope), (∀ s ∈ scopes, s.lookup tok.lexeme = none) →
      defineScopes tok scopes = scopes
  | [], _ => rfl
  | s :: rest, h => by
    have hs : s.lookup tok.lexeme = none := h s (List.mem_cons_self s rest)
    have hrest := defineScopes_not_declared tok rest (fun s' hs' => h s' (List.mem_cons_of_mem s hs'))
    simp [defineScopes, Scope.IsDeclared, hs, hrest]

/-- Claim C10: `defineIdent` on a token whose lexeme is declared in no scope
on the stack (in particular at the top level, where the stack is empty) is a
total, silent no-op: every scope, the stack, the resolution map, and the
diagnostics are unchanged. -/
theorem defineIdent_undeclared_noop (r : Resolver) (tok : Token)
    (h : ∀ s ∈ r.scopes, s.lookup tok.lexeme = none) :
    defineIdent r tok = r := by
  obtain ⟨scopes, dists, errs⟩ := r
  simp only [defineIdent]
  rw [defineScopes_not_declared tok scopes h]

/-- Claim C10, witness: a top-level `Define` (empty stack) is a no-op. -/
theorem defineIdent_undeclared_noop_witness :
    defineIdent newResolver xWriteTok = newResolver :=
  defineIdent_undeclared_noop newResolver xWriteTok (by simp [newResolver])

end Glox
